import Mathlib

/-!
# Verification of the CLI coordination layer

A shallow embedding of the core subsystems of the command-line client's
coordination layer: the redacting traffic logger, the job poller, the
token refresh scheduler, the user actions, and the version-checked
session-token store.  The request-logger, poller, scheduler and actor
implementations are not among the sampled Go sources (only their tests
and interface declarations are), so each operation is modelled from the
specification, and the models are kept consistent with the behaviour
the sampled tests pin down.
-/

namespace CliCore

/-- The fixed redaction marker substituted for any redacted value. -/
def RedactedValue : String := "[PRIVATE DATA HIDDEN]"

/-- Modelled from the spec: a header value as the logger inspects it —
either an opaque string, or (for the redirect-target header) a URL with
its query represented as parsed key/value pairs.  The request-logger
implementation is absent from the sampled sources; its data model
follows the spec's Redaction Policy. -/
inductive HeaderValue
  | plain (s : String)
  | withQuery (base : String) (pairs : List (String × String))
deriving DecidableEq

/-- The query-parameter keys the redaction policy marks as sensitive
(the spec and tests name the `code` key of the redirect target). -/
def sensitiveQueryKeys : List String := ["code"]

/-- Modelled from the spec: within a redirect-target value, only the
sensitive query parameters are redacted; all other key/value pairs are
preserved verbatim, in order. -/
def redactQueryParams (pairs : List (String × String)) : List (String × String) :=
  pairs.map (fun kv => if kv.1 ∈ sensitiveQueryKeys then (kv.1, RedactedValue) else kv)

/-- Render a header value the way the logger displays it. -/
def renderValue : HeaderValue → String
  | .plain s => s
  | .withQuery base pairs =>
      base ++ "?" ++ String.intercalate "&" (pairs.map (fun kv => kv.1 ++ "=" ++ kv.2))

/-- The code of a character after ASCII case folding. -/
def lowerCode (c : Char) : Nat :=
  if 65 ≤ c.toNat ∧ c.toNat ≤ 90 then c.toNat + 32 else c.toNat

/-- The case-folded code sequence of a string, the form in which header
names are matched against the redaction policy. -/
def foldedCodes (s : String) : List Nat := s.data.map lowerCode

/-- Header names whose values are fully redacted by the policy, matched
case-insensitively. -/
def keyIsPrivate (k : String) : Bool :=
  foldedCodes k == foldedCodes "authorization" || foldedCodes k == foldedCodes "set-cookie"

/-- Modelled from the spec: the per-header redaction rule of the traffic
logger.  Policy-matched names are fully redacted; the `Location` header
has only its sensitive query parameters redacted; every other value is
displayed verbatim. -/
def redactHeaderValue (k : String) (v : HeaderValue) : String :=
  if keyIsPrivate k then RedactedValue
  else if k == "Location" then
    match v with
    | .plain s => s
    | .withQuery base pairs => renderValue (.withQuery base (redactQueryParams pairs))
  else renderValue v

/-- One display call made by the logger on its output sink. -/
inductive LogEvent
  | displayType (name : String)
  | requestHeader (method uri protocol : String)
  | host (h : String)
  | header (name value : String)
  | responseHeader (protocol status : String)
  | body (bytes : String)
  | jsonBody (bytes : String)
deriving DecidableEq

/-- Lexicographic comparison of code sequences. -/
def lexLe : List Nat → List Nat → Bool
  | [], _ => true
  | _ :: _, [] => false
  | a :: as, b :: bs => if a < b then true else if a = b then lexLe as bs else false

/-- The code sequence of a string, the key of lexicographic order. -/
def strCodes (s : String) : List Nat := s.data.map Char.toNat

/-- Lexicographic order on strings by character codes. -/
def strLe (a b : String) : Bool := lexLe (strCodes a) (strCodes b)

/-- The display order of two headers: lexicographic by header name. -/
def headerLe (a b : String × HeaderValue) : Prop := strLe a.1 b.1 = true

instance : DecidableRel headerLe := fun a b =>
  inferInstanceAs (Decidable (strLe a.1 b.1 = true))

/-- Headers sorted lexicographically by name before display. -/
def sortHeaders (hs : List (String × HeaderValue)) : List (String × HeaderValue) :=
  hs.insertionSort headerLe

/-- The header lines emitted for one header collection: sorted by name,
each value passed through the redaction rule. -/
def headerEvents (hs : List (String × HeaderValue)) : List LogEvent :=
  (sortHeaders hs).map (fun kv => LogEvent.header kv.1 (redactHeaderValue kv.1 kv.2))

/-- A consumable body stream: reading it drains it, so a reader sees its
data at most once unless the stream is restored. -/
structure BodyStream where
  data : String
  consumed : Bool
deriving DecidableEq

/-- Read everything remaining in a body stream, draining it. -/
def readAll (b : BodyStream) : String × BodyStream :=
  if b.consumed then ("", b) else (b.data, { b with consumed := true })

/-- An outbound request as the logger sees it. -/
structure Request where
  method : String
  uri : String
  protocol : String
  host : String
  headers : List (String × HeaderValue)
  contentType : String
  body : Option BodyStream
deriving DecidableEq

/-- The underlying HTTP response, present only when the transport
produced one. -/
structure HTTPResponse where
  protocol : String
  status : String
  headers : List (String × HeaderValue)
deriving DecidableEq

/-- The response structure handed through the wrapped connection. -/
structure Response where
  rawResponse : String
  httpResponse : Option HTTPResponse
deriving DecidableEq

/-- The logging sink's scripted behaviour: the result of its i-th
`Start` call (`some e` means `Start` raises error `e`). -/
structure SinkScript where
  startErrs : List (Option String)
deriving DecidableEq

/-- The error, if any, raised by the sink's i-th `Start` call. -/
def nthStartErr (s : SinkScript) (i : Nat) : Option String :=
  s.startErrs.getD i none

/-- Whether the declared content type marks the body as structured
(contains the substring `json`). -/
def isJsonContentType (ct : String) : Bool :=
  (ct.splitOn "json").length != 1

/-- The body lines emitted for a request body. -/
def bodyEvents (contentType : String) (bytes : String) : List LogEvent :=
  if isJsonContentType contentType then [LogEvent.jsonBody bytes] else [LogEvent.body bytes]

/-- Everything observable from one `Make` call of the traffic logger:
the display events emitted, the internal errors reported, the returned
result, the request as left behind (its body restored), and how often
the sink and the wrapped connection were driven. -/
structure MakeResult where
  events : List LogEvent
  internalErrors : List String
  result : Option String
  request : Request
  connCalls : Nat
  startCalls : Nat
  stopCalls : Nat
deriving DecidableEq

/-- Modelled from the spec: the request block of the logger.  `Start` is
called first; if it raises, the block is abandoned and the error is the
block's internal error.  Otherwise the type line, request line, host and
sorted redacted headers are displayed, and a present body is read and
then restored so it stays fully readable. -/
def requestChunk (sink : SinkScript) (req : Request) :
    List LogEvent × List String × Request :=
  match nthStartErr sink 0 with
  | some e => ([], [e], req)
  | none =>
      let base := [LogEvent.displayType "REQUEST",
                   LogEvent.requestHeader req.method req.uri req.protocol,
                   LogEvent.host req.host] ++ headerEvents req.headers
      match req.body with
      | none => (base, [], req)
      | some b =>
          let r := readAll b
          (base ++ bodyEvents req.contentType r.1, [],
           { req with body := some ⟨r.1, false⟩ })

/-- Modelled from the spec: the response block of the logger, emitted
only when an underlying HTTP response exists.  `Start` is called (its
index is 1: the request block already consumed call 0); if it raises,
the block is abandoned and the error reported internally. -/
def responseChunk (sink : SinkScript) (resp : Response) :
    List LogEvent × List String :=
  match resp.httpResponse with
  | none => ([], [])
  | some hr =>
      match nthStartErr sink 1 with
      | some e => ([], [e])
      | none =>
          ([LogEvent.displayType "RESPONSE",
            LogEvent.responseHeader hr.protocol hr.status]
           ++ headerEvents hr.headers
           ++ [LogEvent.jsonBody resp.rawResponse], [])

/-- Modelled from the spec: the traffic logger's `Make`.  It logs the
request block, drives the wrapped connection exactly once (its outcome
is `connErr`), logs the response block when an HTTP response exists, and
returns the connection's outcome unchanged; sink errors are only
reported internally. -/
def Make (sink : SinkScript) (req : Request) (connErr : Option String)
    (resp : Response) : MakeResult :=
  let rc := requestChunk sink req
  let pc := responseChunk sink resp
  { events := rc.1 ++ pc.1
    internalErrors := rc.2.1 ++ pc.2
    result := connErr
    request := rc.2.2
    connCalls := 1
    startCalls := 1 + (if resp.httpResponse.isSome then 1 else 0)
    stopCalls := (if (nthStartErr sink 0).isNone then 1 else 0)
      + (if resp.httpResponse.isSome && (nthStartErr sink 1).isNone then 1 else 0) }

/-! ## Job poller -/

/-- The status of a backend job as reported by one status request. -/
inductive JobStatus
  | queued
  | processing
  | finished
  | failed
deriving DecidableEq

/-- A status from which no further transition occurs. -/
def JobStatus.isTerminal : JobStatus → Bool
  | .finished => true
  | .failed => true
  | _ => false

/-- Modelled from the spec: the job poller's observation sequence.  The
poller implementation is absent from the sampled sources; per the spec
it repeatedly issues one status request per poll and stops at the first
terminal status.  `script` is the sequence of statuses the backend would
report to successive requests; the result is the statuses actually
requested and observed, in order. -/
def pollJob : List JobStatus → List JobStatus
  | [] => []
  | s :: rest => if s.isTerminal then [s] else s :: pollJob rest

/-! ## User actions -/

/-- The outcome of the actor's CreateUser: the created user's GUID, the
accumulated warnings, and the classified error if any. -/
structure UserResult where
  guid : String
  warnings : List String
  err : Option String
deriving DecidableEq

/-- Modelled from the spec: the actor's `CreateUser`, whose
implementation is absent from the sampled sources (only its test is).
It first asks the UAA to create the user (that call returns a user id or
an error, and no warnings); on success it asks the cloud controller,
whose call returns a GUID, warnings and an optional error.  The
warnings of every call that participated are returned verbatim, in
append order and without deduplication, alongside any error. -/
def CreateUser (uaaResult : Except String String)
    (cc : String → String × List String × Option String) : UserResult :=
  match uaaResult with
  | .error e => ⟨"", [], some e⟩
  | .ok uid =>
      let r := cc uid
      ⟨r.1, r.2.1, r.2.2⟩

/-! ## Session token store -/

/-- The shared session token, tagged with a monotonically increasing
version used for compare-and-set updates. -/
structure TokenStore where
  version : Nat
  token : String
deriving DecidableEq

/-- Modelled from the spec: one refresh exchange (scheduled or
synchronous) attempting to install its result.  The write is a
version-checked compare-and-set: it takes effect only when the expected
version still matches, and then bumps the version; otherwise the store
is left untouched. -/
def applyRefresh (s : TokenStore) (op : Nat × String) : TokenStore :=
  if op.1 = s.version then ⟨s.version + 1, op.2⟩ else s

/-- The store after a sequence of refresh attempts, covering any
interleaving of the scheduler's and the synchronous refreshes. -/
def runRefreshes (s : TokenStore) (ops : List (Nat × String)) : TokenStore :=
  ops.foldl applyRefresh s

/-! ## Token refresh scheduler -/

/-- What the scheduler observes at each wait: either its timer fired or
the stop signal arrived. -/
inductive SchedulerSignal
  | timerFire
  | stop
deriving DecidableEq

/-- The observable outcome of one scheduler run: how many refresh
exchanges were performed, how many completion signals were delivered,
and the errors reported on the error channel. -/
structure SchedulerRun where
  refreshes : Nat
  doneSignals : Nat
  errors : List String
deriving DecidableEq

/-- Modelled from the spec: the token refresh scheduler's loop, whose
implementation is absent from the sampled sources (only its interface
declaration is).  It waits on whichever fires first of timer and stop
signal; a timer fire performs one refresh exchange (whose optional
failure, scripted by `refreshErrs`, is reported on the error channel
without terminating the loop) and the loop continues; the stop signal
terminates the loop and delivers the completion signal exactly once. -/
def runScheduler : List SchedulerSignal → List (Option String) → SchedulerRun
  | [], _ => ⟨0, 0, []⟩
  | .stop :: _, _ => ⟨0, 1, []⟩
  | .timerFire :: rest, refreshErrs =>
      let e := refreshErrs.getD 0 none
      let r := runScheduler rest (refreshErrs.drop 1)
      ⟨r.refreshes + 1, r.doneSignals, e.toList ++ r.errors⟩

/-! ## Concrete fixtures used by the witnesses -/

/-- A sink whose every `Start` call succeeds. -/
def noSinkErr : SinkScript := ⟨[]⟩

/-- The request of the spec's redaction scenario: it carries exactly the
header `Authorization: secret`. -/
def authReq : Request :=
  { method := "GET", uri := "/banana", protocol := "HTTP/1.1", host := "foo.bar.com",
    headers := [("Authorization", .plain "secret")], contentType := "", body := none }

/-- A request carrying a redirect-target header with a sensitive `code`
query parameter next to an ordinary one. -/
def locReq : Request :=
  { method := "GET", uri := "/banana", protocol := "HTTP/1.1", host := "foo.bar.com",
    headers := [("Location",
      .withQuery "foo.bar/login" [("code", "pleaseRedact"), ("param", "pleasePersist")])],
    contentType := "", body := none }

/-- A request with a fresh non-JSON body. -/
def bodyReq : Request :=
  { method := "GET", uri := "/banana", protocol := "HTTP/1.1", host := "foo.bar.com",
    headers := [], contentType := "", body := some ⟨"foo", false⟩ }

/-- A request whose headers arrive out of lexicographic order. -/
def sortReq : Request :=
  { method := "GET", uri := "/banana", protocol := "HTTP/1.1", host := "foo.bar.com",
    headers := [("Aghi", .plain "bar"), ("Abc", .plain "json"),
                ("Adef", .plain "application/json")],
    contentType := "", body := none }

/-- A response carrying no underlying HTTP response. -/
def emptyResp : Response := ⟨"", none⟩

/-! ## Order lemmas for the header comparator -/

theorem lexLe_total : ∀ as bs : List Nat, lexLe as bs = true ∨ lexLe bs as = true
  | [], _ => Or.inl rfl
  | _ :: _, [] => Or.inr rfl
  | a :: as, b :: bs => by
    rcases Nat.lt_trichotomy a b with h | h | h
    · left; simp [lexLe, h]
    · subst h
      rcases lexLe_total as bs with ih | ih <;> simp [lexLe, ih]
    · right; simp [lexLe, h]

theorem lexLe_trans : ∀ as bs cs : List Nat,
    lexLe as bs = true → lexLe bs cs = true → lexLe as cs = true
  | [], _, _, _, _ => rfl
  | _ :: _, [], _, h, _ => by simp [lexLe] at h
  | _ :: _, _ :: _, [], _, h => by simp [lexLe] at h
  | a :: as, b :: bs, c :: cs, h1, h2 => by
    simp only [lexLe] at h1 h2 ⊢
    by_cases hab : a < b
    · by_cases hbc : b < c
      · simp [Nat.lt_trans hab hbc]
      · by_cases hbc' : b = c
        · subst hbc'; simp [hab]
        · simp [hbc, hbc'] at h2
    · by_cases hab' : a = b
      · subst hab'
        by_cases hbc : a < c
        · simp [hbc]
        · by_cases hbc' : a = c
          · subst hbc'
            simp only [if_neg (lt_irrefl _), if_pos rfl] at h1 h2 ⊢
            exact lexLe_trans as bs cs h1 h2
          · simp [hbc, hbc'] at h2
      · simp [hab, hab'] at h1

theorem lexLe_antisymm : ∀ as bs : List Nat,
    lexLe as bs = true → lexLe bs as = true → as = bs
  | [], [], _, _ => rfl
  | [], _ :: _, _, h => by simp [lexLe] at h
  | _ :: _, [], h, _ => by simp [lexLe] at h
  | a :: as, b :: bs, h1, h2 => by
    simp only [lexLe] at h1 h2
    by_cases hab : a < b
    · simp [Nat.lt_asymm hab, (Nat.ne_of_lt hab).symm] at h2
    · by_cases hab' : a = b
      · subst hab'
        simp only [if_neg (lt_irrefl _), if_pos rfl] at h1 h2
        rw [lexLe_antisymm as bs h1 h2]
      · simp [hab, hab'] at h1

theorem strCodes_inj {a b : String} (h : strCodes a = strCodes b) : a = b := by
  have hchar : ∀ x y : Char, x.toNat = y.toNat → x = y := by
    intro x y hxy
    exact Char.eq_of_val_eq (UInt32.eq_of_toBitVec_eq (by
      have := congrArg (BitVec.ofNat 32) hxy
      simpa [Char.toNat, UInt32.toNat] using this))
  have : a.data = b.data :=
    List.map_injective_iff.mpr (fun x y hxy => hchar x y hxy) h
  exact congrArg String.mk this

theorem strLe_total (a b : String) : strLe a b = true ∨ strLe b a = true :=
  lexLe_total _ _

theorem strLe_trans {a b c : String} (h1 : strLe a b = true) (h2 : strLe b c = true) :
    strLe a c = true :=
  lexLe_trans _ _ _ h1 h2

theorem strLe_antisymm {a b : String} (h1 : strLe a b = true) (h2 : strLe b a = true) :
    a = b :=
  strCodes_inj (lexLe_antisymm _ _ h1 h2)

theorem sortHeaders_perm (hs : List (String × HeaderValue)) :
    List.Perm (sortHeaders hs) hs :=
  List.perm_insertionSort headerLe hs

theorem sortHeaders_sorted (hs : List (String × HeaderValue)) :
    List.Sorted headerLe (sortHeaders hs) := by
  haveI : IsTotal (String × HeaderValue) headerLe := ⟨fun a b => strLe_total a.1 b.1⟩
  haveI : IsTrans (String × HeaderValue) headerLe :=
    ⟨fun _ _ _ h1 h2 => strLe_trans h1 h2⟩
  exact List.sorted_insertionSort headerLe hs

/-- Two header collections that are permutations of each other, with no
duplicated header name, sort to the same display sequence. -/
theorem sortHeaders_eq_of_perm {hs hs' : List (String × HeaderValue)}
    (hperm : List.Perm hs hs') (hnodup : (hs.map Prod.fst).Nodup) :
    sortHeaders hs = sortHeaders hs' := by
  haveI : IsAntisymm (String × HeaderValue)
      (fun a b => headerLe a b ∧ a.1 ≠ b.1) :=
    ⟨fun a b h1 h2 => absurd (strLe_antisymm h1.1 h2.1) h1.2⟩
  have hp : List.Perm (sortHeaders hs) (sortHeaders hs') :=
    (sortHeaders_perm hs).trans (hperm.trans (sortHeaders_perm hs').symm)
  have hnames : ∀ t : List (String × HeaderValue), List.Perm t hs →
      List.Pairwise (fun a b : String × HeaderValue => a.1 ≠ b.1) t := by
    intro t ht
    have : (t.map Prod.fst).Nodup := ((ht.map Prod.fst).nodup_iff).mpr hnodup
    exact (List.pairwise_map).mp this
  have hstrict : ∀ t : List (String × HeaderValue), List.Perm t hs →
      List.Sorted headerLe t →
      List.Sorted (fun a b : String × HeaderValue => headerLe a b ∧ a.1 ≠ b.1) t := by
    intro t ht hsorted
    exact (hsorted.and (hnames t ht))
  exact List.eq_of_perm_of_sorted hp
    (hstrict _ (sortHeaders_perm hs) (sortHeaders_sorted hs))
    (hstrict _ ((sortHeaders_perm hs').trans hperm.symm) (sortHeaders_sorted hs'))

/-! ## Event membership lemmas -/

theorem redactHeaderValue_of_private {k : String} (v : HeaderValue)
    (h : keyIsPrivate k = true) : redactHeaderValue k v = RedactedValue := by
  simp [redactHeaderValue, h]

theorem header_event_mem_headerEvents {k : String} {hv : HeaderValue}
    {hs : List (String × HeaderValue)} (hmem : (k, hv) ∈ hs) :
    LogEvent.header k (redactHeaderValue k hv) ∈ headerEvents hs := by
  have : (k, hv) ∈ sortHeaders hs := (sortHeaders_perm hs).mem_iff.mpr hmem
  exact List.mem_map_of_mem _ this

theorem exists_of_header_event_mem {k v : String} {hs : List (String × HeaderValue)}
    (hmem : LogEvent.header k v ∈ headerEvents hs) :
    ∃ hv, (k, hv) ∈ hs ∧ v = redactHeaderValue k hv := by
  rcases List.mem_map.mp hmem with ⟨kv, hkv, heq⟩
  have h1 : kv.1 = k := by
    injection heq with h1 _
  have h2 : redactHeaderValue kv.1 kv.2 = v := by
    injection heq with _ h2
  refine ⟨kv.2, ?_, ?_⟩
  · have := (sortHeaders_perm hs).mem_iff.mp hkv
    rwa [← h1, Prod.mk.eta]
  · rw [← h2, h1]

theorem header_event_mem_requestChunk {sink : SinkScript} {req : Request}
    {k v : String} (hmem : LogEvent.header k v ∈ (requestChunk sink req).1) :
    LogEvent.header k v ∈ headerEvents req.headers := by
  unfold requestChunk at hmem
  rcases h0 : nthStartErr sink 0 with _ | e <;> rw [h0] at hmem
  · rcases hb : req.body with _ | b <;> rw [hb] at hmem
    · simpa using hmem
    · simp at hmem
      rcases hmem with h | h
      · exact h
      · unfold bodyEvents at h
        split at h <;> simp at h
  · simp at hmem

theorem header_event_mem_responseChunk {sink : SinkScript} {resp : Response}
    {k v : String} (hmem : LogEvent.header k v ∈ (responseChunk sink resp).1) :
    ∃ hr, resp.httpResponse = some hr ∧
      LogEvent.header k v ∈ headerEvents hr.headers := by
  unfold responseChunk at hmem
  rcases hr : resp.httpResponse with _ | r <;> rw [hr] at hmem
  · simp at hmem
  · rcases h1 : nthStartErr sink 1 with _ | e <;> rw [h1] at hmem
    · refine ⟨r, rfl, ?_⟩
      simpa using hmem
    · simp at hmem

theorem header_event_mem_make {sink : SinkScript} {req : Request}
    {connErr : Option String} {resp : Response} {k v : String}
    (hmem : LogEvent.header k v ∈ (Make sink req connErr resp).events) :
    (∃ hv, (k, hv) ∈ req.headers ∧ v = redactHeaderValue k hv) ∨
    (∃ hr hv, resp.httpResponse = some hr ∧ (k, hv) ∈ hr.headers ∧
      v = redactHeaderValue k hv) := by
  rcases List.mem_append.mp hmem with h | h
  · exact Or.inl (exists_of_header_event_mem (header_event_mem_requestChunk h))
  · rcases header_event_mem_responseChunk h with ⟨hr, hhr, hh⟩
    rcases exists_of_header_event_mem hh with ⟨hv, hv1, hv2⟩
    exact Or.inr ⟨hr, hv, hhr, hv1, hv2⟩

/-! ## Claim theorems -/

/-- C1: every header logged by `Make` whose name matches the redaction
policy (Authorization, Set-Cookie, case-insensitively) is displayed with
value exactly `[PRIVATE DATA HIDDEN]`, and the original value of such a
header never appears in any logged header line. -/
theorem make_redacts_private_headers (sink : SinkScript) (req : Request)
    (connErr : Option String) (resp : Response) :
    (∀ k v, LogEvent.header k v ∈ (Make sink req connErr resp).events →
      keyIsPrivate k = true → v = RedactedValue) ∧
    (∀ k hv, keyIsPrivate k = true → renderValue hv ≠ RedactedValue →
      LogEvent.header k (renderValue hv) ∉ (Make sink req connErr resp).events) := by
  have main : ∀ k v, LogEvent.header k v ∈ (Make sink req connErr resp).events →
      keyIsPrivate k = true → v = RedactedValue := by
    intro k v hmem hpriv
    rcases header_event_mem_make hmem with ⟨hv, _, hv2⟩ | ⟨_, hv, _, _, hv2⟩ <;>
      rw [hv2, redactHeaderValue_of_private hv hpriv]
  refine ⟨main, ?_⟩
  intro k hv hpriv hne hmem
  exact hne (main k (renderValue hv) hmem hpriv)

/-- C1 witness: the request carrying exactly `Authorization: secret`
logs its header line as `Authorization: [PRIVATE DATA HIDDEN]`, and the
line `Authorization: secret` is never logged. -/
theorem make_redacts_private_headers_witness :
    LogEvent.header "Authorization" RedactedValue
      ∈ (Make noSinkErr authReq none emptyResp).events ∧
    LogEvent.header "Authorization" "secret"
      ∉ (Make noSinkErr authReq none emptyResp).events := by
  constructor
  · decide
  · exact (make_redacts_private_headers noSinkErr authReq none emptyResp).2
      "Authorization" (.plain "secret") (by decide) (by decide)

theorem headerEvents_subset_requestChunk {sink : SinkScript} {req : Request}
    (hstart : nthStartErr sink 0 = none) {e : LogEvent}
    (he : e ∈ headerEvents req.headers) : e ∈ (requestChunk sink req).1 := by
  unfold requestChunk
  rw [hstart]
  rcases req.body with _ | b <;> simp [he]

theorem headerEvents_subset_responseChunk {sink : SinkScript} {resp : Response}
    {hr : HTTPResponse} (hhr : resp.httpResponse = some hr)
    (hstart : nthStartErr sink 1 = none) {e : LogEvent}
    (he : e ∈ headerEvents hr.headers) : e ∈ (responseChunk sink resp).1 := by
  unfold responseChunk
  rw [hhr, hstart]
  simp [he]

/-- C2: any error raised by the logging sink is reported through the
internal-error handler exactly once per failing call, while the result
of `Make` is the underlying connection's outcome unchanged and the
connection is driven exactly once (no retry, no duplication). -/
theorem make_isolates_sink_failures (sink : SinkScript) (req : Request)
    (connErr : Option String) (resp : Response) :
    (Make sink req connErr resp).result = connErr ∧
    (Make sink req connErr resp).connCalls = 1 ∧
    (Make sink req connErr resp).internalErrors =
      (nthStartErr sink 0).toList ++
      (if resp.httpResponse.isSome then (nthStartErr sink 1).toList else []) := by
  refine ⟨rfl, rfl, ?_⟩
  have hreq : (requestChunk sink req).2.1 = (nthStartErr sink 0).toList := by
    rcases h0 : nthStartErr sink 0 with _ | e
    · rcases hb : req.body with _ | b <;> simp [requestChunk, h0, hb]
    · simp [requestChunk, h0]
  have hresp : (responseChunk sink resp).2 =
      (if resp.httpResponse.isSome then (nthStartErr sink 1).toList else []) := by
    rcases hr : resp.httpResponse with _ | r
    · simp [responseChunk, hr]
    · rcases h1 : nthStartErr sink 1 with _ | e <;> simp [responseChunk, hr, h1]
  show (requestChunk sink req).2.1 ++ (responseChunk sink resp).2 = _
  rw [hreq, hresp]

/-- C3: every `Location` header value logged by `Make` — in the request
block or the response block — is exactly the redacted form of an
original `Location` header value, in which the value of each sensitive
query parameter (the `code` key) is replaced by the redaction marker
while every other key/value pair is preserved verbatim and no pair is
lost (the key sequence is unchanged); and every `Location` header of a
successfully started block is indeed logged in that redacted form. -/
theorem make_redacts_location_query (sink : SinkScript) (req : Request)
    (connErr : Option String) (resp : Response) :
    (∀ v, LogEvent.header "Location" v ∈ (Make sink req connErr resp).events →
      ∃ hv, (("Location", hv) ∈ req.headers ∨
          ∃ hr, resp.httpResponse = some hr ∧ ("Location", hv) ∈ hr.headers) ∧
        v = redactHeaderValue "Location" hv) ∧
    (∀ (base : String) (pairs : List (String × String)),
      redactHeaderValue "Location" (HeaderValue.withQuery base pairs) =
        renderValue (.withQuery base (redactQueryParams pairs))) ∧
    (∀ hv, ("Location", hv) ∈ req.headers → nthStartErr sink 0 = none →
      LogEvent.header "Location" (redactHeaderValue "Location" hv)
        ∈ (Make sink req connErr resp).events) ∧
    (∀ hr hv, resp.httpResponse = some hr → ("Location", hv) ∈ hr.headers →
      nthStartErr sink 1 = none →
      LogEvent.header "Location" (redactHeaderValue "Location" hv)
        ∈ (Make sink req connErr resp).events) ∧
    (∀ pairs : List (String × String),
      (redactQueryParams pairs).map Prod.fst = pairs.map Prod.fst ∧
      (∀ kv ∈ pairs, kv.1 ∉ sensitiveQueryKeys → kv ∈ redactQueryParams pairs) ∧
      (∀ kv ∈ pairs, kv.1 ∈ sensitiveQueryKeys →
        (kv.1, RedactedValue) ∈ redactQueryParams pairs)) := by
  have hk : keyIsPrivate "Location" = false := by decide
  refine ⟨?_, ?_, ?_, ?_, ?_⟩
  · intro v hmem
    rcases header_event_mem_make hmem with ⟨hv, h1, h2⟩ | ⟨hr, hv, hh, h1, h2⟩
    · exact ⟨hv, Or.inl h1, h2⟩
    · exact ⟨hv, Or.inr ⟨hr, hh, h1⟩, h2⟩
  · intro base pairs
    unfold redactHeaderValue
    rw [hk]
    simp
  · intro hv hmem hstart
    exact List.mem_append.mpr (Or.inl
      (headerEvents_subset_requestChunk hstart (header_event_mem_headerEvents hmem)))
  · intro hr hv hhr hmem hstart
    exact List.mem_append.mpr (Or.inr
      (headerEvents_subset_responseChunk hhr hstart (header_event_mem_headerEvents hmem)))
  · intro pairs
    refine ⟨?_, ?_, ?_⟩
    · unfold redactQueryParams
      rw [List.map_map]
      refine List.map_congr_left ?_
      intro kv _
      by_cases h : kv.1 ∈ sensitiveQueryKeys <;> simp [h]
    · intro kv hkv hnot
      unfold redactQueryParams
      have : (if kv.1 ∈ sensitiveQueryKeys then (kv.1, RedactedValue) else kv) = kv := by
        simp [hnot]
      rw [← this]
      exact List.mem_map_of_mem _ hkv
    · intro kv hkv hsens
      unfold redactQueryParams
      have : (if kv.1 ∈ sensitiveQueryKeys then (kv.1, RedactedValue) else kv) =
          (kv.1, RedactedValue) := by simp [hsens]
      rw [← this]
      exact List.mem_map_of_mem _ hkv

/-- C3 witness: the request whose `Location` header carries
`code=pleaseRedact&param=pleasePersist` logs the header with the code
value redacted and the other pair preserved verbatim, and the
unredacted value is never logged as a `Location` line. -/
theorem make_redacts_location_query_witness :
    LogEvent.header "Location"
      (renderValue (.withQuery "foo.bar/login"
        (redactQueryParams [("code", "pleaseRedact"), ("param", "pleasePersist")])))
      ∈ (Make noSinkErr locReq none emptyResp).events ∧
    LogEvent.header "Location"
      (renderValue (.withQuery "foo.bar/login"
        [("code", "pleaseRedact"), ("param", "pleasePersist")]))
      ∉ (Make noSinkErr locReq none emptyResp).events := by
  have T := make_redacts_location_query noSinkErr locReq none emptyResp
  constructor
  · have h3 := T.2.2.1
      (.withQuery "foo.bar/login" [("code", "pleaseRedact"), ("param", "pleasePersist")])
      (by decide) rfl
    rw [T.2.1] at h3
    exact h3
  · intro hmem
    rcases T.1 _ hmem with ⟨hv, hor, heq⟩
    rcases hor with hi | ⟨hr, hhr, _⟩
    · have hv' : hv = HeaderValue.withQuery "foo.bar/login"
          [("code", "pleaseRedact"), ("param", "pleasePersist")] := by
        simpa [locReq] using hi
      rw [hv'] at heq
      exact absurd heq (by decide)
    · simp [emptyResp] at hhr

/-- C5: the traffic logger never consumes the request body it inspects:
after `Make`, the request's body is again a fresh stream of exactly the
original bytes, and reading it yields those bytes. -/
theorem make_restores_body (sink : SinkScript) (req : Request)
    (connErr : Option String) (resp : Response) (data : String)
    (hbody : req.body = some ⟨data, false⟩) :
    (Make sink req connErr resp).request.body = some ⟨data, false⟩ ∧
    (readAll ⟨data, false⟩).1 = data := by
  constructor
  · show (requestChunk sink req).2.2.body = _
    rcases h0 : nthStartErr sink 0 with _ | e
    · simp [requestChunk, h0, hbody, readAll]
    · simp [requestChunk, h0, hbody]
  · rfl

/-- C5 witness: a request with fresh body `foo` still carries a fresh
body `foo` after `Make`, and reading it yields `foo`. -/
theorem make_restores_body_witness :
    (Make noSinkErr bodyReq none emptyResp).request.body = some ⟨"foo", false⟩ ∧
    (readAll ⟨"foo", false⟩).1 = "foo" :=
  make_restores_body noSinkErr bodyReq none emptyResp "foo" rfl

/-- Classifies the events that only the response block may emit. -/
def isResponseEvent : LogEvent → Bool
  | .responseHeader _ _ => true
  | .displayType n => n == "RESPONSE"
  | _ => false

theorem requestChunk_no_response_event {sink : SinkScript} {req : Request}
    {e : LogEvent} (he : e ∈ (requestChunk sink req).1) :
    isResponseEvent e = false := by
  have hhdr : ∀ x ∈ headerEvents req.headers, isResponseEvent x = false := by
    intro x hx
    rcases List.mem_map.mp hx with ⟨kv, _, rfl⟩
    rfl
  unfold requestChunk at he
  rcases h0 : nthStartErr sink 0 with _ | err <;> rw [h0] at he
  · rcases hb : req.body with _ | b <;> rw [hb] at he
    · simp at he
      rcases he with rfl | rfl | rfl | h
      · decide
      · rfl
      · rfl
      · exact hhdr _ h
    · simp at he
      rcases he with rfl | rfl | rfl | h | h
      · decide
      · rfl
      · rfl
      · exact hhdr _ h
      · unfold bodyEvents at h
        split at h <;> simp at h <;> subst h <;> rfl
  · simp at he

/-- C10: when the transport fails with no underlying HTTP response, the
logger emits no response block at all — its output is exactly the
request block, with no response header line and no RESPONSE type line —
and the transport error is returned unchanged. -/
theorem make_no_response_block (sink : SinkScript) (req : Request)
    (connErr : Option String) (resp : Response)
    (hresp : resp.httpResponse = none) :
    (Make sink req connErr resp).result = connErr ∧
    (Make sink req connErr resp).events = (requestChunk sink req).1 ∧
    (∀ p s, LogEvent.responseHeader p s ∉ (Make sink req connErr resp).events) ∧
    LogEvent.displayType "RESPONSE" ∉ (Make sink req connErr resp).events := by
  have hevents : (Make sink req connErr resp).events = (requestChunk sink req).1 := by
    show (requestChunk sink req).1 ++ (responseChunk sink resp).1 = _
    simp [responseChunk, hresp]
  refine ⟨rfl, hevents, ?_, ?_⟩
  · intro p s hmem
    rw [hevents] at hmem
    have := requestChunk_no_response_event hmem
    simp [isResponseEvent] at this
  · intro hmem
    rw [hevents] at hmem
    have := requestChunk_no_response_event hmem
    simp [isResponseEvent] at this

/-- C10 witness: with a transport error `banana` and no HTTP response,
`Make` returns the error unchanged and displays no response block. -/
theorem make_no_response_block_witness :
    (Make noSinkErr authReq (some "banana") emptyResp).result = some "banana" ∧
    (Make noSinkErr authReq (some "banana") emptyResp).events =
      (requestChunk noSinkErr authReq).1 ∧
    (∀ p s, LogEvent.responseHeader p s
      ∉ (Make noSinkErr authReq (some "banana") emptyResp).events) ∧
    LogEvent.displayType "RESPONSE"
      ∉ (Make noSinkErr authReq (some "banana") emptyResp).events :=
  make_no_response_block noSinkErr authReq (some "banana") emptyResp rfl

theorem headerEvents_eq_of_perm {hs hs' : List (String × HeaderValue)}
    (hperm : List.Perm hs hs') (hnodup : (hs.map Prod.fst).Nodup) :
    headerEvents hs = headerEvents hs' := by
  unfold headerEvents
  rw [sortHeaders_eq_of_perm hperm hnodup]

theorem requestChunk_events_eq_of_perm {sink : SinkScript} {req : Request}
    {hs' : List (String × HeaderValue)} (hperm : List.Perm req.headers hs')
    (hnodup : (req.headers.map Prod.fst).Nodup) :
    (requestChunk sink { req with headers := hs' }).1 = (requestChunk sink req).1 := by
  unfold requestChunk
  rcases h0 : nthStartErr sink 0 with _ | e
  · rcases hb : req.body with _ | b <;>
      simp [hb, headerEvents_eq_of_perm hperm hnodup]
  · rfl

/-- C4: the header lines of every request and response logged by `Make`
are emitted lexicographically by header name, and the emitted event
sequence is unchanged under any permutation of the order in which the
headers (with distinct names, as in an HTTP header map) arrived. -/
theorem make_headers_sorted_and_order_independent (sink : SinkScript)
    (req : Request) (connErr : Option String) (resp : Response) :
    (∀ hs', List.Perm req.headers hs' → (req.headers.map Prod.fst).Nodup →
      (Make sink { req with headers := hs' } connErr resp).events =
        (Make sink req connErr resp).events) ∧
    (∀ hr hs', resp.httpResponse = some hr → List.Perm hr.headers hs' →
      (hr.headers.map Prod.fst).Nodup →
      (Make sink req connErr
        { resp with httpResponse := some { hr with headers := hs' } }).events =
        (Make sink req connErr resp).events) ∧
    (∀ hs : List (String × HeaderValue), List.Sorted headerLe (sortHeaders hs)) := by
  refine ⟨?_, ?_, sortHeaders_sorted⟩
  · intro hs' hperm hnodup
    show (requestChunk sink { req with headers := hs' }).1 ++ _ =
      (requestChunk sink req).1 ++ _
    rw [requestChunk_events_eq_of_perm hperm hnodup]
  · intro hr hs' hhr hperm hnodup
    show (requestChunk sink req).1 ++
        (responseChunk sink { resp with httpResponse := some { hr with headers := hs' } }).1 =
      (requestChunk sink req).1 ++ (responseChunk sink resp).1
    have : (responseChunk sink
        { resp with httpResponse := some { hr with headers := hs' } }).1 =
        (responseChunk sink resp).1 := by
      unfold responseChunk
      rw [hhr]
      rcases h1 : nthStartErr sink 1 with _ | e
      · simp [headerEvents_eq_of_perm hperm hnodup]
      · rfl
    rw [this]

/-- C4 witness: the request whose headers arrive as Aghi, Abc, Adef
produces the same log as the one whose headers arrive as Abc, Adef,
Aghi, and the display order of its headers is sorted. -/
theorem make_headers_sorted_and_order_independent_witness :
    (Make noSinkErr { sortReq with headers :=
        [("Abc", .plain "json"), ("Adef", .plain "application/json"),
         ("Aghi", .plain "bar")] } none emptyResp).events =
      (Make noSinkErr sortReq none emptyResp).events ∧
    List.Sorted headerLe (sortHeaders sortReq.headers) :=
  ⟨(make_headers_sorted_and_order_independent noSinkErr sortReq none emptyResp).1
      [("Abc", .plain "json"), ("Adef", .plain "application/json"),
       ("Aghi", .plain "bar")] (by decide) (by decide),
   (make_headers_sorted_and_order_independent noSinkErr sortReq none
      emptyResp).2.2 sortReq.headers⟩

/-- C6: once the job poller observes a terminal status (`finished` or
`failed`), it issues no further status request: a terminal status can
only sit at the very end of the observed sequence. -/
theorem pollJob_no_request_after_terminal (script : List JobStatus) (i : Nat)
    (st : JobStatus) (h : (pollJob script)[i]? = some st)
    (hterm : st.isTerminal = true) :
    i + 1 = (pollJob script).length := by
  induction script generalizing i with
  | nil => simp [pollJob] at h
  | cons s rest ih =>
    by_cases hs : s.isTerminal = true
    · have hpoll : pollJob (s :: rest) = [s] := by simp [pollJob, hs]
      rw [hpoll]
      rw [hpoll] at h
      cases i with
      | zero => rfl
      | succ j => simp at h
    · have hpoll : pollJob (s :: rest) = s :: pollJob rest := by
        simp [pollJob, hs]
      rw [hpoll]
      rw [hpoll] at h
      cases i with
      | zero =>
        simp at h
        rw [← h] at hterm
        exact absurd hterm hs
      | succ j =>
        simp only [List.getElem?_cons_succ] at h
        have := ih j h
        simp only [List.length_cons]
        omega

/-- C6 witness: polling a backend that reports processing, finished,
queued observes exactly [processing, finished]; the terminal status at
position 1 is the last observation (no third request is issued). -/
theorem pollJob_no_request_after_terminal_witness :
    1 + 1 = (pollJob [.processing, .finished, .queued]).length :=
  pollJob_no_request_after_terminal [.processing, .finished, .queued] 1
    .finished (by decide) (by decide)

/-- C7: when the cloud-controller call participating in `CreateUser`
fails, the classified error is returned together with that call's
warnings, verbatim — in append order and without deduplication. -/
theorem createUser_warnings_alongside_error (uid : String)
    (cc : String → String × List String × Option String) (e : String)
    (hcc : (cc uid).2.2 = some e) :
    (CreateUser (.ok uid) cc).err = some e ∧
    (CreateUser (.ok uid) cc).warnings = (cc uid).2.1 := by
  unfold CreateUser
  exact ⟨hcc, rfl⟩

/-- C7 witness: a failing cloud-controller call returning duplicated
warnings `warning-1, warning-1, warning-2` has exactly that list
surfaced, in order, alongside the error. -/
theorem createUser_warnings_alongside_error_witness :
    (CreateUser (.ok "new-user-uaa-id")
      (fun _ => ("", ["warning-1", "warning-1", "warning-2"], some "CC error"))).err
      = some "CC error" ∧
    (CreateUser (.ok "new-user-uaa-id")
      (fun _ => ("", ["warning-1", "warning-1", "warning-2"], some "CC error"))).warnings
      = ["warning-1", "warning-1", "warning-2"] :=
  createUser_warnings_alongside_error "new-user-uaa-id"
    (fun _ => ("", ["warning-1", "warning-1", "warning-2"], some "CC error"))
    "CC error" rfl

theorem version_le_runRefreshes : ∀ (ops : List (Nat × String)) (s : TokenStore),
    s.version ≤ (runRefreshes s ops).version
  | [], _ => le_refl _
  | op :: ops, s => by
    have hstep : s.version ≤ (applyRefresh s op).version := by
      unfold applyRefresh
      split
      · exact Nat.le_succ _
      · exact le_refl _
    exact hstep.trans (version_le_runRefreshes ops (applyRefresh s op))

/-- C8: across any interleaving of scheduled and synchronous refreshes
(each a version-checked compare-and-set), the session token's version is
monotonically non-decreasing, so a requester reading at a later point
never observes a token version older than one it previously observed. -/
theorem tokenVersion_monotone (s : TokenStore) (pre suf : List (Nat × String)) :
    s.version ≤ (runRefreshes s pre).version ∧
    (runRefreshes s pre).version ≤ (runRefreshes s (pre ++ suf)).version := by
  constructor
  · exact version_le_runRefreshes pre s
  · unfold runRefreshes
    rw [List.foldl_append]
    exact version_le_runRefreshes suf _

/-- C9: the refresh scheduler driven by a timer that fires immediately
and then a stop signal performs exactly one refresh exchange, reports no
error, and delivers the completion signal exactly once; in general a
stop signal always terminates with exactly one completion signal and no
error of its own. -/
theorem scheduler_one_refresh_then_clean_stop :
    runScheduler [.timerFire, .stop] [none] = ⟨1, 1, []⟩ ∧
    (∀ (rest : List SchedulerSignal) (errs : List (Option String)),
      (runScheduler (.stop :: rest) errs).doneSignals = 1 ∧
      (runScheduler (.stop :: rest) errs).errors = []) :=
  ⟨rfl, fun _ _ => ⟨rfl, rfl⟩⟩

end CliCore
